import Mathlib

/-!
# go-dvpn: lifecycle coordinator, command catalog and string utilities

A shallow embedding of `dockovpn.go`, `volume.go`, `commands.go` and `util.go`.

Conventions of the embedding.

* The container engine (the Docker client) is an external collaborator.  It is
  a record `Engine` of response functions; each takes the log of all calls
  issued so far, so that an engine may answer the same request differently at
  different times.  Every request the code sends is appended to the call log
  of the `World`, whether it succeeds or not.
* A Go `string` is a Lean `String`: the sequence of runes that Go's `range`
  yields.
* A Go `error` is an `Option GoError` (`none` is `nil`); a Go pointer that may
  be `nil` is an `Option`; a run-time panic is the result `Res.panic`.
* The mutex of the coordinator is not represented: operations are executed one
  after the other.  Diagnostic printing is not represented, except for the
  lines consumed from the container log stream.
-/

namespace GoDvpn

/-! ## Errors and results -/

/-- Error values built by the package itself, and errors handed back by the engine. -/
inductive GoError where
  /-- Value `errors.New("container has already started")` -/
  | alreadyStarted
  /-- Value `errors.New("dockovpn isn't initialized")` -/
  | notInitialized
  /-- Value `errors.New("operation wasn't successful")` -/
  | operationFailed
  /-- Value `fmt.Errorf("volume [%s] not found", volumeName)` -/
  | volumeNotFound (volumeName : String)
  /-- Value `fmt.Errorf("container [%s] not found", containerName)` -/
  | containerNotFound (containerName : String)
  /-- Value `fmt.Errorf("more than 1 container with name [%s] found", containerName)` -/
  | tooManyContainers (containerName : String)
  /-- An error returned by a call of the Docker client, passed on unchanged. -/
  | engine (msg : String)
  deriving DecidableEq

/-- Result of a Go function that may panic instead of returning. -/
inductive Res (α : Type) where
  | ret (a : α)
  | panic
  deriving DecidableEq

/-! ## util.go -/

structure DvpnContainerOptions where
  ImageUrl : String
  ContainerName : String
  deriving DecidableEq

structure RegistryCreds where
  Username : String
  Password : String
  Email : String
  Serveraddress : String
  deriving DecidableEq

/-- Go's `unicode.IsPrint`.  On ASCII it is the interval from the space to the
tilde; above ASCII it is decided by the Unicode tables of the Go library,
which are the parameter `printRanges`. -/
def unicodeIsPrint (printRanges : Char → Bool) (r : Char) : Bool :=
  if r.toNat < 0x80 then decide (0x20 ≤ r.toNat ∧ r.toNat ≤ 0x7E) else printRanges r

/-- Go's `utf8.RuneError`, written in place of a rune that is not valid. -/
def RuneError : Char := Char.ofNat 0xFFFD

/-- Go's `strings.Map`: the mapping is applied to every rune in turn; a
negative result drops the rune, any other result is written to the output. -/
def stringsMap (mapping : Char → Int) : List Char → List Char
  | [] => []
  | r :: rest =>
    let m := mapping r
    if m < 0 then stringsMap mapping rest
    else (if m.toNat.isValidChar then Char.ofNat m.toNat else RuneError) :: stringsMap mapping rest

/-- Function `CleanString` of util.go. -/
def CleanString (printRanges : Char → Bool) (s : String) : String :=
  let out := stringsMap (fun r => if unicodeIsPrint printRanges r then (r.toNat : Int) else -1) s.data
  ⟨out⟩

/-- Go's `strings.Split(s, sep)` for a separator of one rune: the pieces of `s`
between consecutive separators; the result always has at least one piece. -/
def stringsSplit (sep : Char) : List Char → List (List Char)
  | [] => [[]]
  | c :: cs =>
    if c = sep then [] :: stringsSplit sep cs
    else
      match stringsSplit sep cs with
      | [] => [[c]]
      | p :: ps => (c :: p) :: ps

/-- Go's `strings.HasPrefix` on rune sequences. -/
def stringsHasPrefix : List Char → List Char → Bool
  | _, [] => true
  | [], _ :: _ => false
  | a :: s, b :: p => a == b && stringsHasPrefix s p

/-- Go's `strings.Contains` on rune sequences. -/
def stringsContainsAux (substr : List Char) : List Char → Bool
  | [] => stringsHasPrefix [] substr
  | a :: s => stringsHasPrefix (a :: s) substr || stringsContainsAux substr s

/-- Go's `strings.Contains(s, substr)`. -/
def stringsContains (s substr : String) : Bool :=
  stringsContainsAux substr.data s.data

/-! ## commands.go

`Command` is `[]string`.  A catalog entry is a slice, and `append` may write
into the backing array of its argument, so the catalog is embedded over an
explicit store of backing arrays. -/

/-- A Go slice of strings that starts at the first cell of its backing array:
the backing array, the length and the capacity. -/
structure Slice where
  arr : Nat
  len : Nat
  cap : Nat
  deriving DecidableEq

/-- The store of backing arrays; an array is the list of its cells. -/
abbrev Heap := List (List String)

/-- The elements of a slice. -/
def Slice.read (h : Heap) (s : Slice) : List String :=
  (h.getD s.arr []).take s.len

/-- A slice literal `[]string{...}`: a fresh backing array that holds exactly the elements. -/
def sliceLit (h : Heap) (xs : List String) : Slice × Heap :=
  ({ arr := h.length, len := xs.length, cap := xs.length }, h ++ [xs])

/-- Go's built-in `append(s, xs...)`.  When the capacity suffices the elements
are written into the backing array of `s` behind its length; otherwise a new
array is allocated, whose capacity is at least the new length (`grow` is the
growth policy of the runtime). -/
def goAppend (grow : Nat → Nat → Nat) (h : Heap) (s : Slice) (xs : List String) : Slice × Heap :=
  let n := s.len + xs.length
  if n ≤ s.cap then
    ({ s with len := n },
      h.modify (fun a => a.take s.len ++ xs ++ a.drop n) s.arr)
  else
    let newcap := max n (grow s.cap n)
    ({ arr := h.length, len := n, cap := newcap },
      h ++ [s.read h ++ xs ++ List.replicate (newcap - n) ""])

/-- Type `Command`, declared as `[]string`: the value it denotes. -/
abbrev Command := List String

structure cmds where
  version : Slice
  genclient : Slice
  rmclient : Slice
  getclient : Slice
  listclients : Slice
  deriving DecidableEq

/-- Function `makeCommands` of commands.go. -/
def makeCommands (h : Heap) : cmds × Heap :=
  let (version, h1) := sliceLit h ["./version.sh"]
  let (genclient, h2) := sliceLit h1 ["./genclient.sh"]
  let (rmclient, h3) := sliceLit h2 ["./rmclient.sh"]
  let (getclient, h4) := sliceLit h3 ["./getconfig.sh"]
  let (listclients, h5) := sliceLit h4 ["./listconfigs.sh"]
  ({ version := version, genclient := genclient, rmclient := rmclient,
     getclient := getclient, listclients := listclients }, h5)

/-- The package variable `Commands`, set by `init`, with the store after `init`. -/
def Commands : cmds × Heap := makeCommands []

def cmds.GetClient (grow : Nat → Nat → Nat) (c : cmds) (clientId : String) (h : Heap) : Slice × Heap :=
  goAppend grow h c.getclient [clientId]

def cmds.ListClients (c : cmds) (h : Heap) : Slice × Heap :=
  (c.listclients, h)

def cmds.Version (c : cmds) (h : Heap) : Slice × Heap :=
  (c.version, h)

def cmds.GenClient (grow : Nat → Nat → Nat) (c : cmds) (h : Heap) : Slice × Heap :=
  goAppend grow h c.genclient ["o"]

def cmds.GenClientWithID (grow : Nat → Nat → Nat) (c : cmds) (clientId : String) (h : Heap) : Slice × Heap :=
  goAppend grow h c.genclient ["n", clientId]

def cmds.RmClient (grow : Nat → Nat → Nat) (c : cmds) (clientId : String) (h : Heap) : Slice × Heap :=
  goAppend grow h c.rmclient [clientId]

/-- A call of one of the methods of the catalog. -/
inductive CatalogCall where
  | GetClient (clientId : String)
  | ListClients
  | Version
  | GenClient
  | GenClientWithID (clientId : String)
  | RmClient (clientId : String)
  deriving DecidableEq

/-- Executes a call of a catalog method on the store. -/
def CatalogCall.run (grow : Nat → Nat → Nat) (c : cmds) (h : Heap) : CatalogCall → Slice × Heap
  | .GetClient clientId => c.GetClient grow clientId h
  | .ListClients => c.ListClients h
  | .Version => c.Version h
  | .GenClient => c.GenClient grow h
  | .GenClientWithID clientId => c.GenClientWithID grow clientId h
  | .RmClient clientId => c.RmClient grow clientId h

/-- The store after a sequence of calls of catalog methods. -/
def runCatalog (grow : Nat → Nat → Nat) (c : cmds) : Heap → List CatalogCall → Heap
  | h, [] => h
  | h, k :: ks => runCatalog grow c (k.run grow c h).2 ks

/-- The argument vector a catalog method hands to its caller: the elements of
the slice it returns, read when it returns.  Evaluated on the store left by
`init` with the tightest growth policy. -/
def commandOf (k : CatalogCall) : Command :=
  let r := k.run (fun _ n => n) Commands.1 Commands.2
  r.1.read r.2

/-! ## The container engine -/

/-- The fields of `volume.Volume` the package reads. -/
structure Volume where
  Name : String
  deriving DecidableEq

/-- The type `mount.Mount`. -/
structure Mount where
  Source : String
  Target : String
  Type_ : String
  ReadOnly : Bool
  deriving DecidableEq

/-- The type `nat.PortBinding`. -/
structure PortBinding where
  HostIP : String
  HostPort : String
  deriving DecidableEq

/-- The type `nat.PortMap`, as the list of its entries. -/
abbrev PortMap := List (String × List PortBinding)

/-- The fields of `container.Config` the package sets. -/
structure ContainerConfig where
  Image : String
  Tty : Bool
  Cmd : Command
  deriving DecidableEq

/-- The fields of `container.HostConfig` the package sets. -/
structure HostConfig where
  CapAdd : List String
  PortBindings : PortMap
  Mounts : List Mount
  AutoRemove : Bool
  deriving DecidableEq

/-- The fields of `types.ExecConfig` the package sets. -/
structure ExecConfig where
  AttachStdout : Bool
  AttachStderr : Bool
  Tty : Bool
  Cmd : Command
  deriving DecidableEq

/-- A request sent to the engine.  `ImagePull` carries the credentials from
which `GetAuthToken` derives the token; `ContainerLogs` and
`ContainerExecAttach` carry the deadline of their context, in seconds. -/
inductive EngineCall where
  | ImagePull (ref : String) (creds : RegistryCreds)
  | ContainerCreate (config : ContainerConfig) (hostConfig : HostConfig) (containerName : String)
  | ContainerStart (containerId : String)
  | ContainerLogs (containerId : String) (showStdout follow : Bool) (deadline : Nat)
  | ContainerRemove (containerId : String) (force : Bool)
  | ContainerList (nameFilter : String)
  | ContainerExecCreate (containerId : String) (config : ExecConfig)
  | ContainerExecAttach (execId : String) (tty : Bool) (deadline : Nat)
  | ContainerExecInspect (execId : String)
  | VolumeList
  | VolumeCreate (name : String)
  | VolumeRemove (volumeId : String) (force : Bool)
  deriving DecidableEq

/-- What a `bufio.Scanner` delivers from the log stream of a container: the
lines it yields, one after the other, and the value of `scanner.Err()` once
`Scan` has returned false (the stream has ended, or its deadline has passed). -/
structure LogStream where
  lines : List String
  err : Option String
  deriving DecidableEq

/-- The Docker client.  Every response may depend on the calls issued before
(`past`).  An error is the message of the error. -/
structure Engine where
  ImagePull : (past : List EngineCall) → String → RegistryCreds → Except String String
  ContainerCreate : (past : List EngineCall) → ContainerConfig → HostConfig → String → Except String String
  ContainerStart : (past : List EngineCall) → String → Option String
  ContainerLogs : (past : List EngineCall) → String → Nat → Except String LogStream
  ContainerRemove : (past : List EngineCall) → String → Bool → Option String
  /-- The ids of the containers that match the name filter. -/
  ContainerList : (past : List EngineCall) → String → Except String (List String)
  ContainerExecCreate : (past : List EngineCall) → String → ExecConfig → Except String String
  /-- The attached stream: what `io.ReadAll` returns on it. -/
  ContainerExecAttach : (past : List EngineCall) → String → Except String (Except String String)
  /-- The exit code of the command. -/
  ContainerExecInspect : (past : List EngineCall) → String → Except String Int
  VolumeList : (past : List EngineCall) → Except String (List Volume)
  VolumeCreate : (past : List EngineCall) → String → Except String Volume
  VolumeRemove : (past : List EngineCall) → String → Bool → Option String

/-! ## dockovpn.go -/

def dockovpnInitializationCompleted : String := "Initialization Sequence Completed"

/-- The fields of `dockovpnType` other than the client and the mutex. -/
structure dockovpnType where
  containerId : String
  created : Bool
  started : Bool
  initialized : Bool
  deriving DecidableEq

/-- Modelled from the spec: the declaration of `StartOptions` is not among the
sources; the specification gives it four booleans, the fields that
`parseOptions` and `startInternal` read. -/
structure StartOptions where
  Regenerate : Bool
  Skip : Bool
  Noop : Bool
  Quit : Bool
  deriving DecidableEq

/-- The coordinator together with what it has done to its surroundings: the
calls sent to the engine, oldest first, and the lines taken from container
log streams. -/
structure World where
  d : dockovpnType
  calls : List EngineCall
  scanned : List String
  deriving DecidableEq

/-- Appends a request to the call log. -/
def World.record (w : World) (c : EngineCall) : World :=
  { w with calls := w.calls ++ [c] }

/-- Type `volumeType` of volume.go; the coordinator it refers to is the one of the world. -/
structure volumeType where
  volumeId : String
  deriving DecidableEq

/-- Function `NewVolumeRemoveHandle` of volume.go. -/
def NewVolumeRemoveHandle (volumeId : String) : volumeType :=
  { volumeId := volumeId }

def parseOptions (opts : StartOptions) : Command :=
  let cmd : List String := []
  let cmd := if opts.Regenerate then cmd ++ ["-r"] else cmd
  let cmd := if opts.Skip then cmd ++ ["-s"] else cmd
  let cmd := if opts.Noop then cmd ++ ["-n"] else cmd
  let cmd := if opts.Quit then cmd ++ ["-q"] else cmd
  cmd

def makeDockovpnDataVolumeMount (vol : Option Volume) : List Mount :=
  match vol with
  | some v => [{ Source := v.Name, Target := "/opt/Dockovpn_data", Type_ := "volume", ReadOnly := false }]
  | none => []

def makePortMap (tcp : Bool) : PortMap :=
  let portMap : PortMap := [("1194/udp", [{ HostIP := "0.0.0.0", HostPort := "1194/udp" }])]
  if tcp then portMap ++ [("8080/tcp", [{ HostIP := "0.0.0.0", HostPort := "80/tcp" }])]
  else portMap

/-- The loop `for scanner.Scan() { ... }` of `startInternal`: the lines read,
and whether the loop was left because a line contains the marker. -/
def scanLoop : List String → List String × Bool
  | [] => ([], false)
  | line :: rest =>
    if stringsContains line dockovpnInitializationCompleted then ([line], true)
    else
      let r := scanLoop rest
      (line :: r.1, r.2)

def startInternal (E : Engine) (w : World) (dvpnContainerOpts : DvpnContainerOptions)
    (vol : Option Volume) (registryCreds : RegistryCreds) (opts : StartOptions) :
    Option GoError × World :=
  if w.d.started then (some .alreadyStarted, w)
  else
    let w1 := w.record (.ImagePull dvpnContainerOpts.ImageUrl registryCreds)
    match E.ImagePull w.calls dvpnContainerOpts.ImageUrl registryCreds with
    | .error err => (some (.engine err), w1)
    | .ok _ =>
      let cmd := parseOptions opts
      let containerConfig : ContainerConfig :=
        { Image := dvpnContainerOpts.ImageUrl, Tty := true, Cmd := cmd }
      let portBindings := makePortMap false
      let mounts := makeDockovpnDataVolumeMount vol
      let hostConfig : HostConfig :=
        { CapAdd := ["NET_ADMIN"], PortBindings := portBindings, Mounts := mounts, AutoRemove := true }
      let w2 := w1.record (.ContainerCreate containerConfig hostConfig dvpnContainerOpts.ContainerName)
      match E.ContainerCreate w1.calls containerConfig hostConfig dvpnContainerOpts.ContainerName with
      | .error err => (some (.engine err), w2)
      | .ok respID =>
        let w3 : World := { w2 with d := { w2.d with containerId := respID, created := true } }
        let w4 := w3.record (.ContainerStart respID)
        match E.ContainerStart w3.calls respID with
        | some err => (some (.engine err), w4)
        | none =>
          let w5 : World := { w4 with d := { w4.d with started := true } }
          let ctxTimeout : Nat := if opts.Regenerate then 5 * 60 else 10
          let w6 := w5.record (.ContainerLogs respID true true ctxTimeout)
          match E.ContainerLogs w5.calls respID ctxTimeout with
          | .error err => (some (.engine err), w6)
          | .ok logsReader =>
            let r := scanLoop logsReader.lines
            let w7 : World := { w6 with scanned := w6.scanned ++ r.1 }
            if r.2 then (none, { w7 with d := { w7.d with initialized := true } })
            else
              match logsReader.err with
              | some err => (some (.engine err), w7)
              | none => (none, w7)

def findVolumeByName (E : Engine) (w : World) (volumeName : String) :
    (Option Volume × Option GoError) × World :=
  let w1 := w.record .VolumeList
  match E.VolumeList w.calls with
  | .error err => ((none, some (.engine err)), w1)
  | .ok resp =>
    match resp.find? (fun v => v.Name == volumeName) with
    | some v => ((some v, none), w1)
    | none => ((none, some (.volumeNotFound volumeName)), w1)

def findContainerByName (E : Engine) (w : World) (containerName : String) :
    (Option String × Option GoError) × World :=
  let w1 := w.record (.ContainerList containerName)
  match E.ContainerList w.calls containerName with
  | .error err => ((none, some (.engine err)), w1)
  | .ok resp =>
    match resp with
    | [c] => ((some c, none), w1)
    | _ :: _ :: _ => ((none, some (.tooManyContainers containerName)), w1)
    | [] => ((none, some (.containerNotFound containerName)), w1)

def createVolumeWithName (E : Engine) (w : World) (volumeName : String) :
    (Option Volume × Option GoError) × World :=
  let w1 := w.record (.VolumeCreate volumeName)
  match E.VolumeCreate w.calls volumeName with
  | .error err => ((none, some (.engine err)), w1)
  | .ok vol => ((some vol, none), w1)

def execInContainer (E : Engine) (w : World) (cmd : Command) : (String × Option GoError) × World :=
  if !w.d.initialized then (("", some .notInitialized), w)
  else
    let config : ExecConfig := { AttachStdout := true, AttachStderr := false, Tty := true, Cmd := cmd }
    let w1 := w.record (.ContainerExecCreate w.d.containerId config)
    match E.ContainerExecCreate w.calls w.d.containerId config with
    | .error err => (("", some (.engine err)), w1)
    | .ok respID =>
      let w2 := w1.record (.ContainerExecAttach respID true 10)
      match E.ContainerExecAttach w1.calls respID with
      | .error err => (("", some (.engine err)), w2)
      | .ok hijackedResp =>
        match hijackedResp with
        | .error err => (("", some (.engine err)), w2)
        | .ok execOutput =>
          let clean := execOutput
          let w3 := w2.record (.ContainerExecInspect respID)
          match E.ContainerExecInspect w2.calls respID with
          | .error err => ((clean, some (.engine err)), w3)
          | .ok exitCode =>
            if exitCode ≠ 0 then ((clean, some .operationFailed), w3)
            else ((clean, none), w3)

def resetState (d : dockovpnType) : dockovpnType :=
  { d with created := false, started := false, initialized := false }

def removeContainer (E : Engine) (w : World) : World :=
  if !w.d.started then w
  else
    let w1 := w.record (.ContainerRemove w.d.containerId true)
    match E.ContainerRemove w.calls w.d.containerId true with
    | some _ => w1
    | none => { w1 with d := resetState w1.d }

/-- The coordinator of `NewDockovpn`; `cli` is the outcome of building the Docker client. -/
def NewDockovpn (cli : Except String Unit) : Res World :=
  match cli with
  | .error _ => .panic
  | .ok _ => .ret { d := { containerId := "", created := false, started := false, initialized := false },
                    calls := [], scanned := [] }

/-- Function `FindInstance`: `none` inside `ret` is the `nil` interface value. -/
def FindInstance (cli : Except String Unit) (E : Engine) (containerName : String) : Res (Option World) :=
  match cli with
  | .error _ => .panic
  | .ok _ =>
    let w : World := { d := { containerId := "", created := false, started := false, initialized := false },
                       calls := [], scanned := [] }
    let r := findContainerByName E w containerName
    match r.1.2 with
    | some _ => .ret none
    | none =>
      match r.1.1 with
      | none => .panic
      | some dvpnContainer =>
        .ret (some { r.2 with d := { containerId := dvpnContainer, created := true, started := true,
                                     initialized := true } })

def Start (E : Engine) (w : World) (dvpnContainerOpts : DvpnContainerOptions)
    (registryCreds : RegistryCreds) (opts : StartOptions) :
    (Option volumeType × Option GoError) × World :=
  let r := startInternal E w dvpnContainerOpts none registryCreds opts
  ((none, r.1), r.2)

def StartWithPersistentVolume (E : Engine) (w : World) (dvpnContainerOpts : DvpnContainerOptions)
    (volumeName : String) (registryCreds : RegistryCreds) (opts : StartOptions) :
    Res (Option volumeType × Option GoError) × World :=
  let f := findVolumeByName E w volumeName
  let found := f.1.1
  match found with
  | none =>
    let c := createVolumeWithName E f.2 volumeName
    let vol := c.1.1
    -- `vol.Name` is evaluated whether or not the creation failed
    match vol with
    | none => (.panic, c.2)
    | some v =>
      let volumeHandle := NewVolumeRemoveHandle v.Name
      let r := startInternal E c.2 dvpnContainerOpts vol registryCreds opts
      (.ret (some volumeHandle, r.1), r.2)
  | some v =>
    let r := startInternal E f.2 dvpnContainerOpts (some v) registryCreds opts
    (.ret (none, r.1), r.2)

def GetClient (E : Engine) (w : World) (clientId : String) : (String × Option GoError) × World :=
  execInContainer E w (commandOf (.GetClient clientId))

def ListClients (E : Engine) (w : World) : (String × Option GoError) × World :=
  execInContainer E w (commandOf .ListClients)

def Version (printRanges : Char → Bool) (E : Engine) (w : World) :
    Res (String × Option GoError) × World :=
  let r := execInContainer E w (commandOf .Version)
  let out := CleanString printRanges r.1.1
  let resParts := stringsSplit ' ' out.data
  match resParts.get? (resParts.length - 1) with
  | some ver => (.ret (⟨ver⟩, r.1.2), r.2)
  | none => (.panic, r.2)

def GenerateClient (E : Engine) (w : World) : (String × Option GoError) × World :=
  execInContainer E w (commandOf .GenClient)

def GenerateClientWithID (E : Engine) (w : World) (clientId : String) :
    (String × Option GoError) × World :=
  execInContainer E w (commandOf (.GenClientWithID clientId))

def RemoveClient (E : Engine) (w : World) (clientId : String) : (String × Option GoError) × World :=
  execInContainer E w (commandOf (.RmClient clientId))

def Close (E : Engine) (w : World) : World :=
  removeContainer E w

/-! ## volume.go -/

def volumeType.Remove (E : Engine) (v : volumeType) (w : World) : World :=
  -- we have to remove container first
  let w1 := Close E w
  let w2 := w1.record (.VolumeRemove v.volumeId true)
  match E.VolumeRemove w1.calls v.volumeId true with
  | some _ => w2
  | none => w2

/-! ## Notions of the specification -/

/-- The lifecycle states of the specification. -/
inductive LifecycleState where
  | Uninitialized
  | Created
  | Started
  | Ready
  deriving DecidableEq

/-- The lifecycle state the three flags stand for; `none` when the flags are
not one of the four combinations of the specification. -/
def dockovpnType.state (d : dockovpnType) : Option LifecycleState :=
  match d.created, d.started, d.initialized with
  | false, false, false => some .Uninitialized
  | true, false, false => some .Created
  | true, true, false => some .Started
  | true, true, true => some .Ready
  | _, _, _ => none

/-- Position of a coordinator in the order Uninitialized < Created < Started < Ready. -/
def dockovpnType.rank (d : dockovpnType) : Nat :=
  if d.initialized then 3 else if d.started then 2 else if d.created then 1 else 0

/-- One `Start` call: the engine that answers it and the arguments. -/
structure StartRequest where
  engine : Engine
  dvpnContainerOpts : DvpnContainerOptions
  registryCreds : RegistryCreds
  opts : StartOptions

/-- A sequence of `Start` calls on one coordinator. -/
def runStarts : World → List StartRequest → World
  | w, [] => w
  | w, q :: qs => runStarts (Start q.engine w q.dvpnContainerOpts q.registryCreds q.opts).2 qs

/-- Whether a request asks the engine to create a container. -/
def EngineCall.isContainerCreate : EngineCall → Bool
  | .ContainerCreate _ _ _ => true
  | _ => false

/-- Whether a request asks the engine to remove a container. -/
def EngineCall.isContainerRemove : EngineCall → Bool
  | .ContainerRemove _ _ => true
  | _ => false

/-- Whether a request asks the engine to remove a volume. -/
def EngineCall.isVolumeRemove : EngineCall → Bool
  | .VolumeRemove _ _ => true
  | _ => false

/-- A call of one of the public operations of the coordinator. -/
inductive Operation where
  | Start (dvpnContainerOpts : DvpnContainerOptions) (registryCreds : RegistryCreds)
      (opts : StartOptions)
  | StartWithPersistentVolume (dvpnContainerOpts : DvpnContainerOptions) (volumeName : String)
      (registryCreds : RegistryCreds) (opts : StartOptions)
  | GetClient (clientId : String)
  | ListClients
  | Version
  | GenerateClient
  | GenerateClientWithID (clientId : String)
  | RemoveClient (clientId : String)
  | Close

/-- The world an operation leaves behind (when it panics, the world at the panic). -/
def Operation.run (printRanges : Char → Bool) (E : Engine) (w : World) : Operation → World
  | .Start o c s => (GoDvpn.Start E w o c s).2
  | .StartWithPersistentVolume o volumeName c s => (GoDvpn.StartWithPersistentVolume E w o volumeName c s).2
  | .GetClient clientId => (GoDvpn.GetClient E w clientId).2
  | .ListClients => (GoDvpn.ListClients E w).2
  | .Version => (GoDvpn.Version printRanges E w).2
  | .GenerateClient => (GoDvpn.GenerateClient E w).2
  | .GenerateClientWithID clientId => (GoDvpn.GenerateClientWithID E w clientId).2
  | .RemoveClient clientId => (GoDvpn.RemoveClient E w clientId).2
  | .Close => GoDvpn.Close E w

/-- The worlds a coordinator can be in: it comes from `NewDockovpn` or from
`FindInstance`, and then undergoes operations, each answered by an arbitrary
engine. -/
inductive Reachable (printRanges : Char → Bool) : World → Prop where
  | fresh (cli : Except String Unit) (w : World) :
      NewDockovpn cli = .ret w → Reachable printRanges w
  | found (cli : Except String Unit) (E : Engine) (containerName : String) (w : World) :
      FindInstance cli E containerName = .ret (some w) → Reachable printRanges w
  | step (E : Engine) (op : Operation) (w : World) :
      Reachable printRanges w → Reachable printRanges (op.run printRanges E w)

/-- Whether a log line contains the readiness marker. -/
def hasMarker (line : String) : Bool :=
  stringsContains line dockovpnInitializationCompleted

/-- The last whitespace-delimited token of a text, in the words of the
specification: the text is cut at its whitespace characters, and the last
non-empty piece is the token (empty when there is none). -/
def lastToken (s : List Char) : List Char :=
  ((s.splitOnP Char.isWhitespace).filter (fun t => !t.isEmpty)).getLast?.getD []

/-- The backing arrays of the catalog entries are where `init` put them. -/
def BaseIntact (h : Heap) : Prop :=
  ∃ t, h = Commands.2 ++ t

/-- The flags are one of the four combinations of the specification. -/
def FlagsOrdered (d : dockovpnType) : Prop :=
  (d.initialized = true → d.started = true) ∧ (d.started = true → d.created = true)

/-- A step of the coordinator that the specification allows: the position in
the lifecycle order does not decrease, or the engine has carried out the
removal of the stored container, that removal is the only request sent, and all
flags are cleared. -/
def AllowedStep (E : Engine) (w w1 : World) : Prop :=
  (FlagsOrdered w1.d ∧ w.d.rank ≤ w1.d.rank) ∨
  (w1.d.state = some .Uninitialized ∧
    E.ContainerRemove w.calls w.d.containerId true = none ∧
    w1.calls = w.calls ++ [.ContainerRemove w.d.containerId true])

/-! ## Concrete engines and inputs -/

/-- The world of a coordinator returned by `NewDockovpn`. -/
def freshWorld : World :=
  { d := { containerId := "", created := false, started := false, initialized := false },
    calls := [], scanned := [] }

/-- An engine on which every request succeeds: containers are named after the
number of requests seen, the log stream is `stream`, commands print `output`
and exit with `exitCode`, and the volumes present are `volumes`. -/
def happyEngine (stream : LogStream) (output : String) (exitCode : Int) (volumes : List Volume) : Engine :=
  { ImagePull := fun _ _ _ => .ok "pulled"
    ContainerCreate := fun past _ _ _ => .ok ("c" ++ toString past.length)
    ContainerStart := fun _ _ => none
    ContainerLogs := fun _ _ _ => .ok stream
    ContainerRemove := fun _ _ _ => none
    ContainerList := fun _ _ => .ok ["c0"]
    ContainerExecCreate := fun _ _ _ => .ok "e0"
    ContainerExecAttach := fun _ _ => .ok (.ok output)
    ContainerExecInspect := fun _ _ => .ok exitCode
    VolumeList := fun _ => .ok volumes
    VolumeCreate := fun _ name => .ok { Name := name }
    VolumeRemove := fun _ _ _ => none }

/-- A log stream that ends after the line of the readiness marker. -/
def readyStream : LogStream :=
  { lines := ["starting", "Mon Jan  1 Initialization Sequence Completed", "later"], err := none }

/-- An engine that refuses to start the first container it has created and
accepts every other request. -/
def flakyEngine : Engine :=
  { happyEngine readyStream "" 0 [] with
    ContainerStart := fun past _ => if past.length = 2 then some "cannot start" else none }

/-- An engine that refuses to start any container and accepts every other request. -/
def noStartEngine : Engine :=
  { happyEngine readyStream "" 0 [] with
    ContainerStart := fun _ _ => some "cannot start" }

/-- An engine that cannot pull images and accepts every other request. -/
def noPullEngine : Engine :=
  { happyEngine readyStream "" 0 [] with
    ImagePull := fun _ _ _ => .error "pull denied" }

/-- An engine on which the volume requests fail. -/
def noVolumeEngine : Engine :=
  { happyEngine readyStream "" 0 [] with
    VolumeList := fun _ => .error "cannot list volumes"
    VolumeCreate := fun _ _ => .error "cannot create volume" }

/-- An engine that cannot list volumes and accepts every other request. -/
def noListEngine : Engine :=
  { happyEngine readyStream "" 0 [] with
    VolumeList := fun _ => .error "cannot list volumes" }

/-- A log stream that ends without the readiness marker and without an error. -/
def quietStream : LogStream :=
  { lines := ["starting", "still starting"], err := none }

def demoOpts : DvpnContainerOptions := { ImageUrl := "alekslitvinenk/openvpn", ContainerName := "dvpn" }

def demoCreds : RegistryCreds := { Username := "", Password := "", Email := "", Serveraddress := "" }

def demoStart : StartOptions := { Regenerate := false, Skip := false, Noop := false, Quit := false }

/-- A coordinator in the Ready state. -/
def readyWorld : World :=
  { d := { containerId := "c1", created := true, started := true, initialized := true },
    calls := [], scanned := [] }

/-- The world of the coordinator that `FindInstance` returns for the container `c0`. -/
def foundWorld : World :=
  { d := { containerId := "c0", created := true, started := true, initialized := true },
    calls := [.ContainerList "dvpn"], scanned := [] }

/-- A coordinator in the Created state. -/
def createdWorld : World :=
  { d := { containerId := "c1", created := true, started := false, initialized := false },
    calls := [], scanned := [] }

/-! ## Start on a coordinator that has a container -/

theorem startInternal_of_started (E : Engine) (w : World) (o : DvpnContainerOptions)
    (vol : Option Volume) (c : RegistryCreds) (s : StartOptions) (h : w.d.started = true) :
    startInternal E w o vol c s = (some .alreadyStarted, w) := by
  simp [startInternal, h]

theorem runStarts_of_started (w : World) (h : w.d.started = true) (qs : List StartRequest) :
    runStarts w qs = w := by
  induction qs with
  | nil => rfl
  | cons q qs ih =>
    simp only [runStarts, Start, startInternal_of_started _ _ _ _ _ _ h]
    exact ih

/-- C1, as the claim states it, fails.  A fresh coordinator whose first `Start`
gets a container created but not started is in the Created state; the next
`Start` on it does not fail with AlreadyStarted: it pulls and creates again,
the engine has then been asked for two containers and the stored identity has
changed from `c1` to `c4`. -/
theorem C1_start_on_created_counterexample :
    (Start flakyEngine freshWorld demoOpts demoCreds demoStart).2.d.state = some .Created ∧
    (Start flakyEngine freshWorld demoOpts demoCreds demoStart).2.d.containerId = "c1" ∧
    (Start flakyEngine (Start flakyEngine freshWorld demoOpts demoCreds demoStart).2
        demoOpts demoCreds demoStart).1 = (none, none) ∧
    (Start flakyEngine (Start flakyEngine freshWorld demoOpts demoCreds demoStart).2
        demoOpts demoCreds demoStart).2.d.containerId = "c4" ∧
    ((Start flakyEngine (Start flakyEngine freshWorld demoOpts demoCreds demoStart).2
        demoOpts demoCreds demoStart).2.calls.filter EngineCall.isContainerCreate).length = 2 := by
  decide

/-- C1, amended.  On a coordinator whose `started` flag is set (state Started
or Ready), `Start` with any options, credentials and start options fails with
AlreadyStarted and leaves the world as it is: no request reaches the engine and
the stored container identity is unchanged; and after any sequence of `Start`
calls on such a coordinator the world is still the same, so none of them
creates a container. -/
theorem C1_start_when_started (E : Engine) (w : World) (o : DvpnContainerOptions)
    (c : RegistryCreds) (s : StartOptions) (h : w.d.started = true) :
    Start E w o c s = ((none, some .alreadyStarted), w) ∧
    (∀ qs : List StartRequest, runStarts w qs = w) := by
  refine ⟨?_, runStarts_of_started w h⟩
  simp [Start, startInternal_of_started _ _ _ _ _ _ h]

/-- C1, amended, at a coordinator in the Ready state. -/
theorem C1_start_when_started_witness :
    Start flakyEngine readyWorld demoOpts demoCreds demoStart
        = ((none, some .alreadyStarted), readyWorld) ∧
    (∀ qs : List StartRequest, runStarts readyWorld qs = readyWorld) :=
  C1_start_when_started flakyEngine readyWorld demoOpts demoCreds demoStart rfl

/-! ## Client operations before readiness -/

theorem execInContainer_not_initialized (E : Engine) (w : World) (cmd : Command)
    (h : w.d.initialized = false) :
    execInContainer E w cmd = (("", some .notInitialized), w) := by
  simp [execInContainer, h]

theorem CleanString_empty (printRanges : Char → Bool) : CleanString printRanges "" = "" := by
  rfl

/-- C2.  On a coordinator whose `initialized` flag is not set, each of
`GetClient`, `ListClients`, `Version`, `GenerateClient`, `GenerateClientWithID`
and `RemoveClient` returns the NotInitialized error and leaves the world as it
is: the call log has not grown and the coordinator is unchanged. -/
theorem C2_client_operations_not_initialized (printRanges : Char → Bool) (E : Engine) (w : World)
    (clientId : String) (h : w.d.initialized = false) :
    GetClient E w clientId = (("", some .notInitialized), w) ∧
    ListClients E w = (("", some .notInitialized), w) ∧
    Version printRanges E w = (.ret ("", some .notInitialized), w) ∧
    GenerateClient E w = (("", some .notInitialized), w) ∧
    GenerateClientWithID E w clientId = (("", some .notInitialized), w) ∧
    RemoveClient E w clientId = (("", some .notInitialized), w) := by
  refine ⟨?_, ?_, ?_, ?_, ?_, ?_⟩
  · exact execInContainer_not_initialized E w _ h
  · exact execInContainer_not_initialized E w _ h
  · simp only [Version, execInContainer_not_initialized E w _ h, CleanString_empty]
    rfl
  · exact execInContainer_not_initialized E w _ h
  · exact execInContainer_not_initialized E w _ h
  · exact execInContainer_not_initialized E w _ h

/-- C2 at a coordinator in the Created state. -/
theorem C2_client_operations_not_initialized_witness :
    GetClient flakyEngine createdWorld "alice" = (("", some .notInitialized), createdWorld) ∧
    ListClients flakyEngine createdWorld = (("", some .notInitialized), createdWorld) ∧
    Version (fun _ => true) flakyEngine createdWorld
        = (.ret ("", some .notInitialized), createdWorld) ∧
    GenerateClient flakyEngine createdWorld = (("", some .notInitialized), createdWorld) ∧
    GenerateClientWithID flakyEngine createdWorld "alice"
        = (("", some .notInitialized), createdWorld) ∧
    RemoveClient flakyEngine createdWorld "alice" = (("", some .notInitialized), createdWorld) :=
  C2_client_operations_not_initialized (fun _ => true) flakyEngine createdWorld "alice" rfl

/-! ## Close and the volume removal handle -/

theorem removeContainer_not_started (E : Engine) (w : World) (h : w.d.started = false) :
    removeContainer E w = w := by
  simp [removeContainer, h]

theorem removeContainer_started (E : Engine) (w : World) (h : w.d.started = true) :
    removeContainer E w =
      match E.ContainerRemove w.calls w.d.containerId true with
      | some _ => w.record (.ContainerRemove w.d.containerId true)
      | none => { w.record (.ContainerRemove w.d.containerId true) with d := resetState w.d } := by
  simp only [removeContainer, h]
  cases E.ContainerRemove w.calls w.d.containerId true <;> rfl

/-- C3, as the claim states it, fails.  On a coordinator in the Created state
`Close` sends nothing to the engine, although the engine would carry out the
removal. -/
theorem C3_close_created_counterexample :
    createdWorld.d.state = some .Created ∧
    (happyEngine readyStream "" 0 []).ContainerRemove createdWorld.calls
        createdWorld.d.containerId true = none ∧
    Close (happyEngine readyStream "" 0 []) createdWorld = createdWorld ∧
    (Close (happyEngine readyStream "" 0 []) createdWorld).calls
        ≠ createdWorld.calls ++ [.ContainerRemove createdWorld.d.containerId true] := by
  decide

/-- C3, amended.  `Close` does nothing (no request, world unchanged) when the
`started` flag is not set, that is in the states Uninitialized and Created.
When the flag is set (Started or Ready), `Close` sends exactly one request, the
forced removal of the stored container; if the engine reports success all three
flags are cleared (the stored id stays), and if it reports an error the
coordinator is unchanged. -/
theorem C3_close (E : Engine) (w : World) :
    (w.d.started = false → Close E w = w) ∧
    (w.d.started = true →
      (Close E w).calls = w.calls ++ [.ContainerRemove w.d.containerId true] ∧
      (Close E w).scanned = w.scanned ∧
      (E.ContainerRemove w.calls w.d.containerId true = none →
        (Close E w).d = { containerId := w.d.containerId, created := false, started := false,
                          initialized := false } ∧
        (Close E w).d.state = some .Uninitialized) ∧
      (∀ err, E.ContainerRemove w.calls w.d.containerId true = some err → (Close E w).d = w.d)) := by
  refine ⟨fun h => removeContainer_not_started E w h, fun h => ?_⟩
  rw [Close, removeContainer_started E w h]
  cases hr : E.ContainerRemove w.calls w.d.containerId true <;>
    simp [World.record, resetState, dockovpnType.state]

/-- C3, amended, at a coordinator in the Created state and at one in the Ready state. -/
theorem C3_close_witness :
    Close flakyEngine createdWorld = createdWorld ∧
    (Close flakyEngine readyWorld).calls = [.ContainerRemove "c1" true] ∧
    (Close flakyEngine readyWorld).d
      = { containerId := "c1", created := false, started := false, initialized := false } :=
  ⟨(C3_close flakyEngine createdWorld).1 rfl,
   ((C3_close flakyEngine readyWorld).2 rfl).1,
   (((C3_close flakyEngine readyWorld).2 rfl).2.2.1 rfl).1⟩

/-- C5, as the claim states it, fails.  `StartWithPersistentVolume` on a fresh
coordinator creates the volume and hands out its removal handle although the
image pull then fails; the coordinator is still Uninitialized, and `Remove` on
the handle sends the volume removal without any container removal. -/
theorem C5_remove_without_container_counterexample :
    (StartWithPersistentVolume noPullEngine freshWorld demoOpts "data" demoCreds demoStart).1
      = .ret (some { volumeId := "data" }, some (.engine "pull denied")) ∧
    (StartWithPersistentVolume noPullEngine freshWorld demoOpts "data" demoCreds demoStart).2.d.state
      = some .Uninitialized ∧
    (volumeType.Remove noPullEngine { volumeId := "data" }
        (StartWithPersistentVolume noPullEngine freshWorld demoOpts "data" demoCreds demoStart).2).calls
      = [.VolumeList, .VolumeCreate "data", .ImagePull demoOpts.ImageUrl demoCreds,
         .VolumeRemove "data" true] ∧
    ((volumeType.Remove noPullEngine { volumeId := "data" }
        (StartWithPersistentVolume noPullEngine freshWorld demoOpts "data" demoCreds demoStart).2).calls.filter
      EngineCall.isContainerRemove) = [] := by
  decide

/-- The requests `Remove` sends, in terms of the `started` flag alone. -/
theorem volumeType.Remove_calls (E : Engine) (v : volumeType) (w : World) :
    (volumeType.Remove E v w).calls =
      w.calls ++ (if w.d.started then [EngineCall.ContainerRemove w.d.containerId true] else [])
        ++ [.VolumeRemove v.volumeId true] := by
  cases h : w.d.started
  · simp [volumeType.Remove, Close, removeContainer_not_started E w h, World.record]
    cases E.VolumeRemove w.calls v.volumeId true <;> rfl
  · simp only [volumeType.Remove, Close, removeContainer_started E w h]
    cases E.ContainerRemove w.calls w.d.containerId true <;>
      simp [World.record] <;>
      split <;> simp

/-- C5, amended.  When the coordinator is Started or Ready, `Remove` on a volume
removal handle sends exactly two requests: the forced removal of the stored
container and, after it, the forced removal of the volume of the handle; no
volume removal comes before the container removal.  When the coordinator is
Uninitialized, so that it holds no container, `Remove` sends exactly one
request, the forced removal of the volume.  Nothing is said about the Created
state. -/
theorem C5_remove_order (E : Engine) (v : volumeType) (w : World) :
    ((w.d.state = some .Started ∨ w.d.state = some .Ready) →
      (volumeType.Remove E v w).calls =
        w.calls ++ [.ContainerRemove w.d.containerId true, .VolumeRemove v.volumeId true]) ∧
    (w.d.state = some .Uninitialized →
      (volumeType.Remove E v w).calls = w.calls ++ [.VolumeRemove v.volumeId true]) := by
  rw [volumeType.Remove_calls]
  cases hc : w.d.created <;> cases hs : w.d.started <;> cases hi : w.d.initialized <;>
    simp [dockovpnType.state, hc, hs, hi]

/-- C5, amended, at a coordinator in the Ready state and at a fresh one. -/
theorem C5_remove_order_witness :
    (volumeType.Remove flakyEngine { volumeId := "data" } readyWorld).calls
      = [.ContainerRemove "c1" true, .VolumeRemove "data" true] ∧
    (volumeType.Remove flakyEngine { volumeId := "data" } freshWorld).calls
      = [.VolumeRemove "data" true] :=
  ⟨(C5_remove_order flakyEngine { volumeId := "data" } readyWorld).1 (Or.inr rfl),
   (C5_remove_order flakyEngine { volumeId := "data" } freshWorld).2 rfl⟩

/-- The Created state, which C5 as amended leaves out.  `StartWithPersistentVolume`
on a fresh coordinator creates the volume and a container that mounts it; the
engine then refuses to start the container, and the handle is returned with
the error.  `Remove` on the handle sends the removal of the volume and no
removal of the container, which stays behind; the comment of `Remove` in
volume.go says the container has to be removed first. -/
theorem Remove_on_created_skips_container :
    (StartWithPersistentVolume noStartEngine freshWorld demoOpts "data" demoCreds demoStart).1
      = .ret (some { volumeId := "data" }, some (.engine "cannot start")) ∧
    (StartWithPersistentVolume noStartEngine freshWorld demoOpts "data" demoCreds demoStart).2.d
      = { containerId := "c3", created := true, started := false, initialized := false } ∧
    ((StartWithPersistentVolume noStartEngine freshWorld demoOpts "data" demoCreds demoStart).2.calls.map
        (fun k => (k.isContainerCreate, k.isContainerRemove, k.isVolumeRemove)))
      = [(false, false, false), (false, false, false), (false, false, false),
         (true, false, false), (false, false, false)] ∧
    ((volumeType.Remove noStartEngine { volumeId := "data" }
        (StartWithPersistentVolume noStartEngine freshWorld demoOpts "data" demoCreds
          demoStart).2).calls.drop 5)
      = [.VolumeRemove "data" true] := by
  decide

/-! ## Readiness detection -/

theorem scanLoop_eq (lines : List String) :
    scanLoop lines =
      (lines.takeWhile (fun l => !hasMarker l) ++ (lines.find? hasMarker).toList,
       lines.any hasMarker) := by
  induction lines with
  | nil => rfl
  | cons line rest ih =>
    unfold scanLoop
    by_cases h : stringsContains line dockovpnInitializationCompleted = true
    · simp [h, hasMarker]
    · simp only [Bool.not_eq_true] at h
      simp [h, hasMarker, ih]

/-- C6.  Provisioning (`startInternal`, with or without a volume) on an
Uninitialized coordinator, when image pull, container creation, container
start and log attachment succeed.  If some log line contains
"Initialization Sequence Completed", it returns no error, the coordinator is
Ready with the identity the engine gave, and the lines read are those up to and
including the first line with the marker.  If no line contains it and the
scanner reports no error when the stream ends (or its deadline passes), it
returns no error and the coordinator is Started, not Ready.  In both cases the
requests sent are pull, create, start and log attachment, in this order. -/
theorem C6_readiness (E : Engine) (w : World) (o : DvpnContainerOptions) (vol : Option Volume)
    (c : RegistryCreds) (s : StartOptions) (pulled id : String) (stream : LogStream)
    (hU : w.d.state = some .Uninitialized)
    (hpull : E.ImagePull w.calls o.ImageUrl c = .ok pulled)
    (hcreate : E.ContainerCreate (w.calls ++ [.ImagePull o.ImageUrl c])
        { Image := o.ImageUrl, Tty := true, Cmd := parseOptions s }
        { CapAdd := ["NET_ADMIN"], PortBindings := makePortMap false,
          Mounts := makeDockovpnDataVolumeMount vol, AutoRemove := true }
        o.ContainerName = .ok id)
    (hstart : E.ContainerStart (w.calls ++ [.ImagePull o.ImageUrl c] ++
        [.ContainerCreate { Image := o.ImageUrl, Tty := true, Cmd := parseOptions s }
          { CapAdd := ["NET_ADMIN"], PortBindings := makePortMap false,
            Mounts := makeDockovpnDataVolumeMount vol, AutoRemove := true }
          o.ContainerName]) id = none)
    (hlogs : E.ContainerLogs (w.calls ++ [.ImagePull o.ImageUrl c] ++
        [.ContainerCreate { Image := o.ImageUrl, Tty := true, Cmd := parseOptions s }
          { CapAdd := ["NET_ADMIN"], PortBindings := makePortMap false,
            Mounts := makeDockovpnDataVolumeMount vol, AutoRemove := true }
          o.ContainerName] ++ [.ContainerStart id]) id (if s.Regenerate then 5 * 60 else 10)
        = .ok stream) :
    (startInternal E w o vol c s).2.calls =
      w.calls ++ [.ImagePull o.ImageUrl c] ++
        [.ContainerCreate { Image := o.ImageUrl, Tty := true, Cmd := parseOptions s }
          { CapAdd := ["NET_ADMIN"], PortBindings := makePortMap false,
            Mounts := makeDockovpnDataVolumeMount vol, AutoRemove := true }
          o.ContainerName] ++ [.ContainerStart id] ++
        [.ContainerLogs id true true (if s.Regenerate then 5 * 60 else 10)] ∧
    ((∃ line ∈ stream.lines, stringsContains line dockovpnInitializationCompleted = true) →
      (startInternal E w o vol c s).1 = none ∧
      (startInternal E w o vol c s).2.d
        = { containerId := id, created := true, started := true, initialized := true } ∧
      (startInternal E w o vol c s).2.d.state = some .Ready ∧
      (startInternal E w o vol c s).2.scanned
        = w.scanned ++ (stream.lines.takeWhile
            (fun l => !stringsContains l dockovpnInitializationCompleted) ++
          (stream.lines.find?
            (fun l => stringsContains l dockovpnInitializationCompleted)).toList)) ∧
    ((∀ line ∈ stream.lines, stringsContains line dockovpnInitializationCompleted = false) →
      stream.err = none →
      (startInternal E w o vol c s).1 = none ∧
      (startInternal E w o vol c s).2.d
        = { containerId := id, created := true, started := true, initialized := false } ∧
      (startInternal E w o vol c s).2.d.state = some .Started ∧
      (startInternal E w o vol c s).2.scanned = w.scanned ++ stream.lines) := by
  have hs : w.d.started = false := by
    revert hU
    cases hc : w.d.created <;> cases hs : w.d.started <;> cases hi : w.d.initialized <;>
      simp [dockovpnType.state, hc, hs, hi]
  have hany : ∀ b, stream.lines.any hasMarker = b →
      startInternal E w o vol c s =
        if b then
          (none, { d := { containerId := id, created := true, started := true, initialized := true },
                   calls := w.calls ++ [.ImagePull o.ImageUrl c] ++
                     [.ContainerCreate { Image := o.ImageUrl, Tty := true, Cmd := parseOptions s }
                       { CapAdd := ["NET_ADMIN"], PortBindings := makePortMap false,
                         Mounts := makeDockovpnDataVolumeMount vol, AutoRemove := true }
                       o.ContainerName] ++ [.ContainerStart id] ++
                     [.ContainerLogs id true true (if s.Regenerate then 5 * 60 else 10)],
                   scanned := w.scanned ++ (stream.lines.takeWhile (fun l => !hasMarker l) ++
                     (stream.lines.find? hasMarker).toList) })
        else
          ((stream.err.map GoError.engine),
            { d := { containerId := id, created := true, started := true, initialized := false },
              calls := w.calls ++ [.ImagePull o.ImageUrl c] ++
                [.ContainerCreate { Image := o.ImageUrl, Tty := true, Cmd := parseOptions s }
                  { CapAdd := ["NET_ADMIN"], PortBindings := makePortMap false,
                    Mounts := makeDockovpnDataVolumeMount vol, AutoRemove := true }
                  o.ContainerName] ++ [.ContainerStart id] ++
                [.ContainerLogs id true true (if s.Regenerate then 5 * 60 else 10)],
              scanned := w.scanned ++ (stream.lines.takeWhile (fun l => !hasMarker l) ++
                (stream.lines.find? hasMarker).toList) }) := by
    intro b hb
    have hi : w.d.initialized = false := by
      revert hU
      cases hc : w.d.created <;> cases hs : w.d.started <;> cases hi : w.d.initialized <;>
        simp [dockovpnType.state, hc, hs, hi]
    simp only [List.append_assoc] at hstart hlogs
    simp only [startInternal, hs, World.record, hpull, hcreate, hstart, hlogs, scanLoop_eq, hb,
      List.append_assoc, Bool.false_eq_true, if_false]
    cases b
    · cases he : stream.err <;> simp [hi]
    · simp
  have hfun : (fun l => stringsContains l dockovpnInitializationCompleted) = hasMarker := rfl
  simp only [hfun]
  refine ⟨?_, ?_, ?_⟩
  · cases hb : stream.lines.any hasMarker <;> simp [hany _ hb]
  · rintro ⟨line, hmem, hline⟩
    have hb : stream.lines.any hasMarker = true := List.any_eq_true.mpr ⟨line, hmem, hline⟩
    simp [hany _ hb, dockovpnType.state]
    rfl
  · intro hnone herr
    have hb : stream.lines.any hasMarker = false := by
      rw [List.any_eq_false]
      intro l hl
      simpa [hasMarker] using hnone l hl
    have htake : stream.lines.takeWhile (fun l => !hasMarker l) = stream.lines := by
      rw [List.takeWhile_eq_self_iff]
      intro l hl
      simpa [hasMarker] using hnone l hl
    have hfind : stream.lines.find? hasMarker = none := by
      rw [List.find?_eq_none]
      intro l hl
      simpa [hasMarker] using hnone l hl
    simp [hany _ hb, herr, htake, hfind, dockovpnType.state]

/-- C6 on a fresh coordinator, for a log stream with the marker and for one without. -/
theorem C6_readiness_witness :
    (startInternal (happyEngine readyStream "" 0 []) freshWorld demoOpts none demoCreds demoStart).2.d
      = { containerId := "c1", created := true, started := true, initialized := true } ∧
    (startInternal (happyEngine readyStream "" 0 []) freshWorld demoOpts none demoCreds demoStart).2.scanned
      = ["starting", "Mon Jan  1 Initialization Sequence Completed"] ∧
    (startInternal (happyEngine quietStream "" 0 []) freshWorld demoOpts none demoCreds demoStart).2.d
      = { containerId := "c1", created := true, started := true, initialized := false } :=
  ⟨((C6_readiness (happyEngine readyStream "" 0 []) freshWorld demoOpts none demoCreds demoStart
      "pulled" "c1" readyStream rfl rfl rfl rfl rfl).2.1
      ⟨"Mon Jan  1 Initialization Sequence Completed", by decide, by decide⟩).2.1,
   ((C6_readiness (happyEngine readyStream "" 0 []) freshWorld demoOpts none demoCreds demoStart
      "pulled" "c1" readyStream rfl rfl rfl rfl rfl).2.1
      ⟨"Mon Jan  1 Initialization Sequence Completed", by decide, by decide⟩).2.2.2,
   ((C6_readiness (happyEngine quietStream "" 0 []) freshWorld demoOpts none demoCreds demoStart
      "pulled" "c1" quietStream rfl rfl rfl rfl rfl).2.2 (by decide) rfl).2.1⟩

/-! ## CleanString and the version string -/

theorem stringsMap_keep (p : Char → Bool) (l : List Char) :
    stringsMap (fun r => if p r then (r.toNat : Int) else -1) l = l.filter p := by
  induction l with
  | nil => rfl
  | cons r rest ih =>
    unfold stringsMap
    cases hp : p r
    · simp [ih, hp]
    · have hv : r.toNat.isValidChar := r.valid
      simp [ih, hp, hv]

theorem CleanString_data (printRanges : Char → Bool) (s : String) :
    (CleanString printRanges s).data = s.data.filter (unicodeIsPrint printRanges) := by
  simp [CleanString, stringsMap_keep]

/-- C7.  For every string, `CleanString` yields only printable characters; the
result is the sequence of the printable characters of the input in their
original order (so it is a subsequence of the input, and a printable character
occurs in it as often as in the input); and cleaning a cleaned string changes
nothing. -/
theorem C7_CleanString (printRanges : Char → Bool) (s : String) :
    (∀ r ∈ (CleanString printRanges s).data, unicodeIsPrint printRanges r = true) ∧
    (CleanString printRanges s).data = s.data.filter (unicodeIsPrint printRanges) ∧
    (CleanString printRanges s).data.Sublist s.data ∧
    (∀ r, unicodeIsPrint printRanges r = true →
      (CleanString printRanges s).data.count r = s.data.count r) ∧
    CleanString printRanges (CleanString printRanges s) = CleanString printRanges s := by
  refine ⟨?_, CleanString_data printRanges s, ?_, ?_, ?_⟩
  · intro r hr
    rw [CleanString_data] at hr
    exact (List.mem_filter.mp hr).2
  · rw [CleanString_data]
    exact List.filter_sublist _
  · intro r hr
    rw [CleanString_data, List.count_filter hr]
  · have h : (CleanString printRanges (CleanString printRanges s)).data
        = (CleanString printRanges s).data := by
      rw [CleanString_data, CleanString_data, List.filter_filter]
      simp
    cases h1 : CleanString printRanges (CleanString printRanges s)
    cases h2 : CleanString printRanges s
    rw [h1, h2] at h
    exact congrArg String.mk h

theorem stringsSplit_last (sep : Char) (l : List Char) :
    ∃ ver, (stringsSplit sep l).get? ((stringsSplit sep l).length - 1) = some ver ∧ sep ∉ ver ∧
      ((stringsSplit sep l = [ver] ∧ l = ver) ∨
       (∃ pre, l = pre ++ sep :: ver ∧ 2 ≤ (stringsSplit sep l).length)) := by
  induction l with
  | nil => exact ⟨[], by simp [stringsSplit]⟩
  | cons c cs ih =>
    obtain ⟨ver, hlast, hsep, hshape⟩ := ih
    by_cases hc : c = sep
    · subst hc
      refine ⟨ver, ?_, hsep, Or.inr ?_⟩
      · rcases hshape with ⟨h1, _⟩ | ⟨_, _, h2⟩
        · simp [stringsSplit, h1]
        · have : (stringsSplit c cs).length - 1 + 1 = (stringsSplit c cs).length := by omega
          simp only [stringsSplit, if_true, List.length_cons, Nat.add_sub_cancel]
          rw [← this, List.get?_cons_succ]
          exact hlast
      · rcases hshape with ⟨h1, h2⟩ | ⟨pre, h2, h3⟩
        · exact ⟨[], by simp [h2], by simp [stringsSplit, h1]⟩
        · exact ⟨c :: pre, by simp [h2], by simp [stringsSplit]; omega⟩
    · rcases hshape with ⟨h1, h2⟩ | ⟨pre, h2, h3⟩
      · refine ⟨c :: ver, by simp [stringsSplit, hc, h1], ?_, Or.inl ⟨by simp [stringsSplit, hc, h1], by rw [h2]⟩⟩
        simp only [List.mem_cons, not_or]
        exact ⟨fun h => hc h.symm, hsep⟩
      · cases hsp : stringsSplit sep cs with
        | nil => simp [hsp] at h3
        | cons p ps =>
          rw [hsp] at hlast h3
          refine ⟨ver, ?_, hsep, Or.inr ⟨c :: pre, by simp [h2], by simp [stringsSplit, hc, hsp]; simpa using h3⟩⟩
          simp only [stringsSplit, hc, if_false, hsp, List.length_cons, Nat.add_sub_cancel] at hlast ⊢
          cases ps with
          | nil => simp at h3
          | cons q qs => simpa using hlast

theorem last_piece_empty_iff (sep : Char) (l ver : List Char) (hsep : sep ∉ ver)
    (hshape : l = ver ∨ ∃ pre, l = pre ++ sep :: ver) :
    ver = [] ↔ (l = [] ∨ l.getLast? = some sep) := by
  rcases hshape with h | ⟨pre, h⟩
  · subst h
    constructor
    · exact fun h => Or.inl h
    · rintro (h | h)
      · exact h
      · exact absurd (List.mem_of_getLast?_eq_some h) hsep
  · subst h
    constructor
    · intro hv
      subst hv
      right
      simp
    · rintro (h | h)
      · simp at h
      · cases ver with
        | nil => rfl
        | cons a as =>
          exfalso
          apply hsep
          have : (pre ++ sep :: a :: as).getLast? = (a :: as).getLast? := by
            rw [show pre ++ sep :: a :: as = (pre ++ [sep]) ++ (a :: as) by simp]
            rw [List.getLast?_append_of_ne_nil _ (by simp)]
          rw [this] at h
          exact List.mem_of_getLast?_eq_some h

theorem execInContainer_output (E : Engine) (w : World) (cmd : Command) (execId raw : String)
    (hinit : w.d.initialized = true)
    (hcreate : E.ContainerExecCreate w.calls w.d.containerId
      { AttachStdout := true, AttachStderr := false, Tty := true, Cmd := cmd } = .ok execId)
    (hattach : E.ContainerExecAttach (w.calls ++ [.ContainerExecCreate w.d.containerId
      { AttachStdout := true, AttachStderr := false, Tty := true, Cmd := cmd }]) execId
      = .ok (.ok raw)) :
    (execInContainer E w cmd).1.1 = raw := by
  simp only [execInContainer, hinit, World.record, hcreate, hattach]
  cases E.ContainerExecInspect _ execId with
  | error e => simp
  | ok code => by_cases h0 : code = 0 <;> simp [h0]

/-- C8, as the claim states it, fails.  In the Ready state, when the version
command prints `Dockovpn 1.0` followed by a space and a line end, the last
whitespace-delimited token of the cleaned output is `1.0`, but `Version`
returns the empty string. -/
theorem C8_version_trailing_space_counterexample :
    (Version (fun _ => true) (happyEngine readyStream "Dockovpn 1.0 \r\n" 0 []) readyWorld).1
      = .ret ("", none) ∧
    lastToken (CleanString (fun _ => true) "Dockovpn 1.0 \r\n").data = "1.0".data := by
  decide

/-- C8, amended.  In the Ready state, for every raw output of the version
command, `Version` does not panic (no index is out of range, also for empty
output) and returns, with the error of the execution, the part of the cleaned
output behind its last space character: the returned string holds no space, and
the cleaned output is either the returned string itself or ends with a space
followed by the returned string.  The returned string is empty exactly when
the cleaned output is empty or ends with a space. -/
theorem C8_version (printRanges : Char → Bool) (E : Engine) (w : World) (execId raw : String)
    (hinit : w.d.initialized = true)
    (hcreate : E.ContainerExecCreate w.calls w.d.containerId
      { AttachStdout := true, AttachStderr := false, Tty := true, Cmd := commandOf .Version }
      = .ok execId)
    (hattach : E.ContainerExecAttach (w.calls ++ [.ContainerExecCreate w.d.containerId
      { AttachStdout := true, AttachStderr := false, Tty := true, Cmd := commandOf .Version }])
      execId = .ok (.ok raw)) :
    ∃ ver : String,
      Version printRanges E w
        = (.ret (ver, (execInContainer E w (commandOf .Version)).1.2),
           (execInContainer E w (commandOf .Version)).2) ∧
      ' ' ∉ ver.data ∧
      ((CleanString printRanges raw).data = ver.data ∨
        ∃ pre, (CleanString printRanges raw).data = pre ++ ' ' :: ver.data) ∧
      (ver.data = [] ↔
        ((CleanString printRanges raw).data = [] ∨
          (CleanString printRanges raw).data.getLast? = some ' ')) := by
  have hout := execInContainer_output E w _ execId raw hinit hcreate hattach
  obtain ⟨ver, hlast, hsep, hshape⟩ := stringsSplit_last ' ' (CleanString printRanges raw).data
  have hshape2 : (CleanString printRanges raw).data = ver ∨
      ∃ pre, (CleanString printRanges raw).data = pre ++ ' ' :: ver := by
    rcases hshape with ⟨_, h⟩ | ⟨pre, h, _⟩
    · exact Or.inl h
    · exact Or.inr ⟨pre, h⟩
  refine ⟨⟨ver⟩, ?_, hsep, hshape2, last_piece_empty_iff ' ' _ ver hsep hshape2⟩
  simp only [Version, hout, hlast]

/-- C8, amended, at a coordinator in the Ready state whose version command prints one line. -/
theorem C8_version_witness :
    ∃ ver : String,
      Version (fun _ => true) (happyEngine readyStream "Dockovpn 1.0\r\n" 0 []) readyWorld
        = (.ret (ver, (execInContainer (happyEngine readyStream "Dockovpn 1.0\r\n" 0 []) readyWorld
              (commandOf .Version)).1.2),
           (execInContainer (happyEngine readyStream "Dockovpn 1.0\r\n" 0 []) readyWorld
              (commandOf .Version)).2) ∧
      ' ' ∉ ver.data ∧
      ((CleanString (fun _ => true) "Dockovpn 1.0\r\n").data = ver.data ∨
        ∃ pre, (CleanString (fun _ => true) "Dockovpn 1.0\r\n").data = pre ++ ' ' :: ver.data) ∧
      (ver.data = [] ↔
        ((CleanString (fun _ => true) "Dockovpn 1.0\r\n").data = [] ∨
          (CleanString (fun _ => true) "Dockovpn 1.0\r\n").data.getLast? = some ' ')) :=
  C8_version (fun _ => true) (happyEngine readyStream "Dockovpn 1.0\r\n" 0 []) readyWorld
    "e0" "Dockovpn 1.0\r\n" rfl rfl rfl

/-! ## The command catalog -/

theorem Commands_eq :
    Commands =
      ({ version := ⟨0, 1, 1⟩, genclient := ⟨1, 1, 1⟩, rmclient := ⟨2, 1, 1⟩,
         getclient := ⟨3, 1, 1⟩, listclients := ⟨4, 1, 1⟩ },
       [["./version.sh"], ["./genclient.sh"], ["./rmclient.sh"], ["./getconfig.sh"],
        ["./listconfigs.sh"]]) := by
  rfl

theorem BaseIntact.read (h : Heap) (hb : BaseIntact h) :
    Commands.1.version.read h = ["./version.sh"] ∧
    Commands.1.genclient.read h = ["./genclient.sh"] ∧
    Commands.1.rmclient.read h = ["./rmclient.sh"] ∧
    Commands.1.getclient.read h = ["./getconfig.sh"] ∧
    Commands.1.listclients.read h = ["./listconfigs.sh"] := by
  obtain ⟨t, rfl⟩ := hb
  simp [Commands_eq, Slice.read]

theorem goAppend_full (grow : Nat → Nat → Nat) (h : Heap) (s : Slice) (xs : List String)
    (hfull : s.cap < s.len + xs.length) (hlen : (s.read h).length = s.len) :
    (∃ a, (goAppend grow h s xs).2 = h ++ [a]) ∧
    (goAppend grow h s xs).1.read (goAppend grow h s xs).2 = s.read h ++ xs := by
  have hn : ¬ (s.len + xs.length ≤ s.cap) := by omega
  simp only [goAppend, hn, if_false]
  refine ⟨⟨_, rfl⟩, ?_⟩
  have hget : (h ++ [s.read h ++ xs ++
      List.replicate (max (s.len + xs.length) (grow s.cap (s.len + xs.length))
        - (s.len + xs.length)) ""]).getD h.length []
      = s.read h ++ xs ++ List.replicate (max (s.len + xs.length) (grow s.cap (s.len + xs.length))
        - (s.len + xs.length)) "" := by
    simp [List.getD_eq_getElem?_getD]
  show List.take _ (List.getD _ _ _) = _
  rw [hget]
  exact List.take_left' (by rw [List.length_append, hlen])

theorem CatalogCall.run_spec (grow : Nat → Nat → Nat) (h : Heap) (hb : BaseIntact h)
    (k : CatalogCall) :
    BaseIntact (k.run grow Commands.1 h).2 ∧
    (k.run grow Commands.1 h).1.read (k.run grow Commands.1 h).2 =
      match k with
      | .GetClient clientId => ["./getconfig.sh", clientId]
      | .ListClients => ["./listconfigs.sh"]
      | .Version => ["./version.sh"]
      | .GenClient => ["./genclient.sh", "o"]
      | .GenClientWithID clientId => ["./genclient.sh", "n", clientId]
      | .RmClient clientId => ["./rmclient.sh", clientId] := by
  obtain ⟨hv, hg, hr, hc, hl⟩ := BaseIntact.read h hb
  have key : ∀ (s : Slice) (xs : List String) (base : String), s.len = 1 → s.cap = 1 →
      xs ≠ [] → s.read h = [base] →
      BaseIntact (goAppend grow h s xs).2 ∧
      (goAppend grow h s xs).1.read (goAppend grow h s xs).2 = base :: xs := by
    intro s xs base h1 h2 hx hrd
    have hpos : 0 < xs.length := List.length_pos.mpr hx
    obtain ⟨⟨a, ha⟩, hread⟩ := goAppend_full grow h s xs (by omega) (by rw [hrd, h1]; rfl)
    refine ⟨?_, by rw [hread, hrd]; rfl⟩
    obtain ⟨t, ht⟩ := hb
    exact ⟨t ++ [a], by rw [ha, ht, List.append_assoc]⟩
  cases k with
  | GetClient clientId => exact key _ _ _ rfl rfl (by simp) hc
  | ListClients => exact ⟨hb, hl⟩
  | Version => exact ⟨hb, hv⟩
  | GenClient => exact key _ _ _ rfl rfl (by simp) hg
  | GenClientWithID clientId => exact key _ _ _ rfl rfl (by simp) hg
  | RmClient clientId => exact key _ _ _ rfl rfl (by simp) hr

theorem runCatalog_intact (grow : Nat → Nat → Nat) (ks : List CatalogCall) :
    ∀ h, BaseIntact h → BaseIntact (runCatalog grow Commands.1 h ks) := by
  induction ks with
  | nil => exact fun h hb => hb
  | cons k ks ih => exact fun h hb => ih _ (CatalogCall.run_spec grow h hb k).1

/-- C9.  After `init` and any sequence of earlier calls of catalog methods,
under any growth policy of `append`: `Version` yields `["./version.sh"]`,
`ListClients` yields `["./listconfigs.sh"]`, `GetClient(id)` yields
`["./getconfig.sh", id]`, `GenClient` yields `["./genclient.sh", "o"]`,
`GenClientWithID(id)` yields `["./genclient.sh", "n", id]` and `RmClient(id)`
yields `["./rmclient.sh", id]`; and after any further call the five entries of
the catalog still hold their script name only. -/
theorem C9_command_catalog (grow : Nat → Nat → Nat) (ks : List CatalogCall) (clientId : String) :
    (CatalogCall.Version.run grow Commands.1 (runCatalog grow Commands.1 Commands.2 ks)).1.read
      (CatalogCall.Version.run grow Commands.1 (runCatalog grow Commands.1 Commands.2 ks)).2
      = ["./version.sh"] ∧
    (CatalogCall.ListClients.run grow Commands.1 (runCatalog grow Commands.1 Commands.2 ks)).1.read
      (CatalogCall.ListClients.run grow Commands.1 (runCatalog grow Commands.1 Commands.2 ks)).2
      = ["./listconfigs.sh"] ∧
    ((CatalogCall.GetClient clientId).run grow Commands.1
        (runCatalog grow Commands.1 Commands.2 ks)).1.read
      ((CatalogCall.GetClient clientId).run grow Commands.1
        (runCatalog grow Commands.1 Commands.2 ks)).2
      = ["./getconfig.sh", clientId] ∧
    (CatalogCall.GenClient.run grow Commands.1 (runCatalog grow Commands.1 Commands.2 ks)).1.read
      (CatalogCall.GenClient.run grow Commands.1 (runCatalog grow Commands.1 Commands.2 ks)).2
      = ["./genclient.sh", "o"] ∧
    ((CatalogCall.GenClientWithID clientId).run grow Commands.1
        (runCatalog grow Commands.1 Commands.2 ks)).1.read
      ((CatalogCall.GenClientWithID clientId).run grow Commands.1
        (runCatalog grow Commands.1 Commands.2 ks)).2
      = ["./genclient.sh", "n", clientId] ∧
    ((CatalogCall.RmClient clientId).run grow Commands.1
        (runCatalog grow Commands.1 Commands.2 ks)).1.read
      ((CatalogCall.RmClient clientId).run grow Commands.1
        (runCatalog grow Commands.1 Commands.2 ks)).2
      = ["./rmclient.sh", clientId] ∧
    (∀ k : CatalogCall,
      Commands.1.version.read (k.run grow Commands.1 (runCatalog grow Commands.1 Commands.2 ks)).2
        = ["./version.sh"] ∧
      Commands.1.genclient.read (k.run grow Commands.1 (runCatalog grow Commands.1 Commands.2 ks)).2
        = ["./genclient.sh"] ∧
      Commands.1.rmclient.read (k.run grow Commands.1 (runCatalog grow Commands.1 Commands.2 ks)).2
        = ["./rmclient.sh"] ∧
      Commands.1.getclient.read (k.run grow Commands.1 (runCatalog grow Commands.1 Commands.2 ks)).2
        = ["./getconfig.sh"] ∧
      Commands.1.listclients.read (k.run grow Commands.1 (runCatalog grow Commands.1 Commands.2 ks)).2
        = ["./listconfigs.sh"]) := by
  have hb : BaseIntact (runCatalog grow Commands.1 Commands.2 ks) :=
    runCatalog_intact grow ks _ ⟨[], by simp⟩
  exact ⟨(CatalogCall.run_spec grow _ hb .Version).2,
    (CatalogCall.run_spec grow _ hb .ListClients).2,
    (CatalogCall.run_spec grow _ hb (.GetClient clientId)).2,
    (CatalogCall.run_spec grow _ hb .GenClient).2,
    (CatalogCall.run_spec grow _ hb (.GenClientWithID clientId)).2,
    (CatalogCall.run_spec grow _ hb (.RmClient clientId)).2,
    fun k => BaseIntact.read _ (CatalogCall.run_spec grow _ hb k).1⟩

/-! ## Order of the lifecycle states -/

/-- What `startInternal` can do to the coordinator. -/
theorem startInternal_d (E : Engine) (w : World) (o : DvpnContainerOptions) (vol : Option Volume)
    (c : RegistryCreds) (s : StartOptions) :
    (startInternal E w o vol c s).2.d = w.d ∨
    (w.d.started = false ∧ ∃ id,
      (startInternal E w o vol c s).2.d = { w.d with containerId := id, created := true } ∨
      (startInternal E w o vol c s).2.d
        = { w.d with containerId := id, created := true, started := true } ∨
      (startInternal E w o vol c s).2.d
        = { containerId := id, created := true, started := true, initialized := true }) := by
  unfold startInternal
  cases hs : w.d.started
  · simp only [Bool.false_eq_true, if_false]
    cases E.ImagePull w.calls o.ImageUrl c with
    | error e => exact Or.inl rfl
    | ok pulled =>
      simp only [World.record]
      cases E.ContainerCreate _ _ _ o.ContainerName with
      | error e => exact Or.inl rfl
      | ok id =>
        refine Or.inr ⟨trivial, id, ?_⟩
        simp only
        cases E.ContainerStart _ id with
        | some e => exact Or.inl rfl
        | none =>
          simp only
          cases E.ContainerLogs _ id _ with
          | error e => exact Or.inr (Or.inl rfl)
          | ok logsReader =>
            simp only
            cases (scanLoop logsReader.lines).2
            · simp only [Bool.false_eq_true, if_false]
              cases logsReader.err <;> exact Or.inr (Or.inl rfl)
            · exact Or.inr (Or.inr rfl)
  · exact Or.inl (by simp)

theorem execInContainer_d (E : Engine) (w : World) (cmd : Command) :
    (execInContainer E w cmd).2.d = w.d := by
  unfold execInContainer
  cases w.d.initialized
  · rfl
  · simp only [Bool.not_true, Bool.false_eq_true, if_false, World.record]
    cases E.ContainerExecCreate w.calls w.d.containerId _ with
    | error e => rfl
    | ok respID =>
      simp only
      cases E.ContainerExecAttach _ respID with
      | error e => rfl
      | ok hijackedResp =>
        cases hijackedResp with
        | error e => rfl
        | ok execOutput =>
          simp only
          cases E.ContainerExecInspect _ respID with
          | error e => rfl
          | ok exitCode => by_cases h0 : exitCode = 0 <;> simp [h0]

theorem StartWithPersistentVolume_d (E : Engine) (w : World) (o : DvpnContainerOptions)
    (volumeName : String) (c : RegistryCreds) (s : StartOptions) :
    (StartWithPersistentVolume E w o volumeName c s).2.d = w.d ∨
    ∃ w1 vol, w1.d = w.d ∧
      (StartWithPersistentVolume E w o volumeName c s).2 = (startInternal E w1 o vol c s).2 := by
  have hf : (findVolumeByName E w volumeName).2.d = w.d := by
    unfold findVolumeByName
    cases E.VolumeList w.calls with
    | error e => rfl
    | ok resp => simp only; cases resp.find? _ <;> rfl
  have hc : ∀ w1 : World, (createVolumeWithName E w1 volumeName).2.d = w1.d := by
    intro w1
    unfold createVolumeWithName
    cases E.VolumeCreate w1.calls volumeName <;> rfl
  unfold StartWithPersistentVolume
  simp only
  cases (findVolumeByName E w volumeName).1.1 with
  | some v => exact Or.inr ⟨_, _, hf, rfl⟩
  | none =>
    simp only
    cases hv : (createVolumeWithName E (findVolumeByName E w volumeName).2 volumeName).1.1 with
    | none => exact Or.inl (by simp only [hc, hf])
    | some v => exact Or.inr ⟨_, _, by rw [hc, hf], rfl⟩

theorem allowed_of_d_eq (E : Engine) (w w1 : World) (hw : FlagsOrdered w.d) (h : w1.d = w.d) :
    AllowedStep E w w1 :=
  Or.inl ⟨by rw [h]; exact hw, by rw [h]⟩

theorem allowed_startInternal (E : Engine) (w w1 : World) (o : DvpnContainerOptions)
    (vol : Option Volume) (c : RegistryCreds) (s : StartOptions) (hw : FlagsOrdered w.d)
    (h1 : w1.d = w.d) : AllowedStep E w (startInternal E w1 o vol c s).2 := by
  rcases startInternal_d E w1 o vol c s with h | ⟨hs, id, h | h | h⟩
  · exact allowed_of_d_eq E w _ hw (h.trans h1)
  all_goals
    left
    rw [h1] at hs
    have hi : w.d.initialized = false := by
      cases hi : w.d.initialized
      · rfl
      · rw [hw.1 hi] at hs; cases hs
    rw [h]
    constructor
    · simp [FlagsOrdered, h1, hs, hi]
    · cases hc : w.d.created <;> simp [dockovpnType.rank, h1, hs, hi, hc]

theorem allowed_step (printRanges : Char → Bool) (E : Engine) (w : World) (hw : FlagsOrdered w.d)
    (op : Operation) : AllowedStep E w (op.run printRanges E w) := by
  cases op with
  | Start o c s => exact allowed_startInternal E w w o none c s hw rfl
  | StartWithPersistentVolume o volumeName c s =>
    rcases StartWithPersistentVolume_d E w o volumeName c s with h | ⟨w1, vol, h1, h⟩
    · exact allowed_of_d_eq E w _ hw h
    · simp only [Operation.run, h]
      exact allowed_startInternal E w w1 o vol c s hw h1
  | GetClient clientId => exact allowed_of_d_eq E w _ hw (execInContainer_d E w _)
  | ListClients => exact allowed_of_d_eq E w _ hw (execInContainer_d E w _)
  | Version =>
    refine allowed_of_d_eq E w _ hw ?_
    simp only [Operation.run, Version]
    split <;> exact execInContainer_d E w _
  | GenerateClient => exact allowed_of_d_eq E w _ hw (execInContainer_d E w _)
  | GenerateClientWithID clientId => exact allowed_of_d_eq E w _ hw (execInContainer_d E w _)
  | RemoveClient clientId => exact allowed_of_d_eq E w _ hw (execInContainer_d E w _)
  | Close =>
    simp only [Operation.run, Close]
    cases hs : w.d.started
    · exact allowed_of_d_eq E w _ hw (by rw [removeContainer_not_started E w hs])
    · rw [removeContainer_started E w hs]
      cases hr : E.ContainerRemove w.calls w.d.containerId true with
      | some e => exact allowed_of_d_eq E w _ hw rfl
      | none => exact Or.inr ⟨rfl, hr, rfl⟩

theorem reachable_ordered (printRanges : Char → Bool) (w : World)
    (hr : Reachable printRanges w) : FlagsOrdered w.d := by
  induction hr with
  | fresh cli w h =>
    cases cli with
    | error e => simp [NewDockovpn] at h
    | ok u =>
      simp only [NewDockovpn, Res.ret.injEq] at h
      subst h
      simp [FlagsOrdered]
  | found cli E containerName w h =>
    cases cli with
    | error e => simp [FindInstance] at h
    | ok u =>
      simp only [FindInstance] at h
      split at h
      · simp at h
      · split at h
        · simp at h
        · simp only [Res.ret.injEq, Option.some.injEq] at h
          subst h
          simp [FlagsOrdered]
  | step E op w _ ih =>
    rcases allowed_step printRanges E w ih op with ⟨h, _⟩ | ⟨h, _⟩
    · exact h
    · revert h
      generalize (op.run printRanges E w).d = d
      cases hc : d.created <;> cases hs : d.started <;> cases hi : d.initialized <;>
        simp [dockovpnType.state, FlagsOrdered, hc, hs, hi]

/-- C10.  In every world reachable from `NewDockovpn` or `FindInstance` by
`Start`, `StartWithPersistentVolume`, the client operations and `Close`, with
arbitrary answers of the engine: `initialized` implies `started`, `started`
implies `created`, so the state is one of Uninitialized, Created, Started and
Ready; and every operation leaves the coordinator at the same or a later
position in the order Uninitialized < Created < Started < Ready, or else clears
all flags after sending exactly one request, the removal of the stored
container, which the engine reported successful. -/
theorem C10_lifecycle_order (printRanges : Char → Bool) (w : World)
    (hr : Reachable printRanges w) :
    (w.d.initialized = true → w.d.started = true) ∧
    (w.d.started = true → w.d.created = true) ∧
    (w.d.state = some .Uninitialized ∨ w.d.state = some .Created ∨
      w.d.state = some .Started ∨ w.d.state = some .Ready) ∧
    (∀ (E : Engine) (op : Operation),
      w.d.rank ≤ (op.run printRanges E w).d.rank ∨
      ((op.run printRanges E w).d.state = some .Uninitialized ∧
        E.ContainerRemove w.calls w.d.containerId true = none ∧
        (op.run printRanges E w).calls = w.calls ++ [.ContainerRemove w.d.containerId true])) := by
  have hw := reachable_ordered printRanges w hr
  refine ⟨hw.1, hw.2, ?_, fun E op => ?_⟩
  · obtain ⟨h1, h2⟩ := hw
    revert h1 h2
    cases hc : w.d.created <;> cases hs : w.d.started <;> cases hi : w.d.initialized <;>
      simp [dockovpnType.state, hc, hs, hi]
  · rcases allowed_step printRanges E w hw op with ⟨_, h⟩ | h
    · exact Or.inl h
    · exact Or.inr h

/-- C10 at the coordinator that `FindInstance` returns. -/
theorem C10_lifecycle_order_witness :
    (foundWorld.d.initialized = true → foundWorld.d.started = true) ∧
    (foundWorld.d.started = true → foundWorld.d.created = true) ∧
    (foundWorld.d.state = some .Uninitialized ∨ foundWorld.d.state = some .Created ∨
      foundWorld.d.state = some .Started ∨ foundWorld.d.state = some .Ready) ∧
    (∀ (E : Engine) (op : Operation),
      foundWorld.d.rank ≤ (op.run (fun _ => true) E foundWorld).d.rank ∨
      ((op.run (fun _ => true) E foundWorld).d.state = some .Uninitialized ∧
        E.ContainerRemove foundWorld.calls foundWorld.d.containerId true = none ∧
        (op.run (fun _ => true) E foundWorld).calls
          = foundWorld.calls ++ [.ContainerRemove foundWorld.d.containerId true])) :=
  C10_lifecycle_order (fun _ => true) foundWorld
    (Reachable.found (.ok ()) (happyEngine readyStream "" 0 []) "dvpn" foundWorld rfl)

/-! ## Volume resolution -/

theorem StartWithPersistentVolume_create_error (E : Engine) (w : World)
    (o : DvpnContainerOptions) (volumeName : String) (c : RegistryCreds) (s : StartOptions)
    (err : String)
    (hfind : (findVolumeByName E w volumeName).1.1 = none)
    (hcreate : E.VolumeCreate (w.calls ++ [.VolumeList]) volumeName = .error err) :
    StartWithPersistentVolume E w o volumeName c s
      = (.panic, { w with calls := w.calls ++ [.VolumeList] ++ [.VolumeCreate volumeName] }) := by
  have hw : (findVolumeByName E w volumeName).2 = w.record .VolumeList := by
    unfold findVolumeByName
    cases E.VolumeList w.calls with
    | error e => rfl
    | ok resp => simp only; cases resp.find? _ <;> rfl
  simp only [StartWithPersistentVolume, hfind, hw, createVolumeWithName, World.record, hcreate]

/-- C4 fails on the code.  When the engine reports an error both for the volume
list and for the volume creation, `StartWithPersistentVolume` drops the first
error, asks for the creation of the volume all the same, and then panics on
the `nil` volume instead of returning an error.  When only the volume list
fails, it returns no error at all and goes on to create the volume and the
container. -/
theorem C4_volume_errors :
    StartWithPersistentVolume noVolumeEngine freshWorld demoOpts "data" demoCreds demoStart
      = (.panic, { freshWorld with calls := [.VolumeList, .VolumeCreate "data"] }) ∧
    (StartWithPersistentVolume noListEngine freshWorld demoOpts "data" demoCreds demoStart).1
      = .ret (some { volumeId := "data" }, none) ∧
    ((StartWithPersistentVolume noListEngine freshWorld demoOpts "data" demoCreds demoStart).2.calls.map
        (fun k => (k == .VolumeList, k == .VolumeCreate "data", k.isContainerCreate)))
      = [(true, false, false), (false, true, false), (false, false, false), (false, false, true),
         (false, false, false), (false, false, false)] := by
  decide

end GoDvpn
